import Mathlib

/-!
Verification of the slidev-mcp content pipeline.

The source under scrutiny is `src/src/tools.ts` (outline generation, slide
rendering, validation) and `src/src/index.ts` (theme/layout recommendation),
together with the layout/theme catalogs of the second server variant.

Strings are modelled as lists of characters (`Str`).  The JavaScript string
operations used by the source (`split`, `includes`, `startsWith`, `trim`,
`toLowerCase`, `join`, template literals) are modelled by the `js*` functions
below with JavaScript semantics: `split` on a non-empty separator scans left to
right taking non-overlapping matches and keeps empty trailing segments.
-/

set_option maxRecDepth 2000000

abbrev Str := List Char

def strOf (s : String) : Str := s.data

/-- Models JS `s.startsWith(pat)`. -/
def jsStartsWith : Str → Str → Bool
  | _, [] => true
  | [], _ :: _ => false
  | c :: cs, p :: ps => c == p && jsStartsWith cs ps

/-- First occurrence of `sep` in `s`: `some (pre, post)` with
`s = pre ++ sep ++ post` and `pre` shortest; `none` when `sep` does not occur
(for non-empty `sep`). -/
def splitOnceAux (sep : Str) : Str → Option (Str × Str)
  | [] => none
  | c :: rest =>
    if jsStartsWith (c :: rest) sep then some ([], List.drop sep.length (c :: rest))
    else
      match splitOnceAux sep rest with
      | none => none
      | some pp => some (c :: pp.1, pp.2)

/-- Models JS `s.includes(pat)` for non-empty `pat`. -/
def jsIncludes (s pat : Str) : Bool := (splitOnceAux pat s).isSome

/-- Fuelled worker for `jsSplit`. -/
def jsSplitF (sep : Str) : Nat → Str → List Str
  | 0, s => [s]
  | fuel + 1, s =>
    match splitOnceAux sep s with
    | none => [s]
    | some pp => pp.1 :: jsSplitF sep fuel pp.2

/-- Models JS `s.split(sep)` for non-empty `sep`; fuel `s.length` suffices
because every match consumes at least one character. -/
def jsSplit (s sep : Str) : List Str := jsSplitF sep s.length s

/-- Models JS `arr.join(sep)`. -/
def jsJoin (sep : Str) : List Str → Str
  | [] => []
  | [a] => a
  | a :: b :: rest => a ++ sep ++ jsJoin sep (b :: rest)

/-- Models JS `s.toLowerCase()` (ASCII range, as exercised by the source). -/
def toLowerStr (s : Str) : Str := s.map Char.toLower

/-! ## Outline generator (tools.ts lines 2-22) -/

/-- Models `Math.max(5, Math.min(20, Math.floor(duration / 2)))` (tools.ts
line 3); `Int.fdiv` is exactly `Math.floor` of the exact quotient. -/
def clampedSlides (duration : Int) : Int := max 5 (min 20 (Int.fdiv duration 2))

/-- Models tools.ts `generatePresentationOutline`.  `Math.floor(slides * 0.6)`
is rendered as `3 * slides / 5`, which agrees with the IEEE-double computation
for every reachable value `5 ≤ slides ≤ 20`.  The source default for
`duration` is `30`. -/
def generatePresentationOutline (topic : Str) (duration : Int) : List Str :=
  let slides : Nat := (clampedSlides duration).toNat
  let contentSlides : Nat := 3 * slides / 5
  let outline : List Str :=
    [strOf "Title: " ++ topic, strOf "Introduction and Overview",
      strOf "Background and Context"]
      ++ (List.range contentSlides).map (fun i => strOf "Main Content " ++ strOf (Nat.repr (i + 1)))
      ++ [strOf "Key Takeaways", strOf "Conclusion", strOf "Q&A"]
  outline.take slides

/-! ## Slide renderer (tools.ts lines 25-130, 170-236) -/

/-- Models tools.ts `createTableOfContents`. -/
def createTableOfContents (topics : List Str) : Str :=
  strOf "---\nlayout: center\n---\n\n# Table of Contents\n\n"
    ++ jsJoin (strOf "\n") (topics.map (fun topic => strOf "- " ++ topic))
    ++ strOf "\n\n---\n"

/-- Deck front-matter plus title slide (first element of `slides` in
`createPresentationFromOutline`). -/
def deckHeader (title author theme : Str) : Str :=
  strOf "---\ntheme: " ++ theme ++ strOf "\ntitle: " ++ title ++ strOf "\nauthor: " ++ author
    ++ strOf "\ndrawings:\n  enabled: true\n  persist: false\ntransition: slide-left\ncolorSchema: auto\n---\n\n# "
    ++ title ++ strOf "\n\nA presentation by " ++ author ++ strOf "\n\n---\n"

/-- Body used when the outline item mentions "introduction". -/
def introContent (title : Str) : Str :=
  strOf "## Welcome\n\nThis presentation covers " ++ toLowerStr title
    ++ strOf ".\n\n### What you\x27ll learn:\n- Key concepts and principles\n- Practical applications\n- Real-world examples"

/-- Body used when the outline item mentions "conclusion". -/
def conclusionContent (title : Str) : Str :=
  strOf "## Summary\n\nWe\x27ve covered the essential aspects of " ++ toLowerStr title
    ++ strOf ".\n\n### Key takeaways:\n- Point 1\n- Point 2\n- Point 3"

/-- Body used when the outline item mentions "q&a". -/
def qaContent (author : Str) : Str :=
  strOf "# Questions?\n\nThank you for your attention!\n\nContact: " ++ author

/-- Placeholder body for a generic outline item. -/
def genericContent (item : Str) : Str :=
  strOf "## " ++ item ++ strOf "\n\n<!-- Add your content for \"" ++ item
    ++ strOf "\" here -->\n\n### Key Points:\n- Point 1\n- Point 2\n- Point 3\n\n### Details:\n- Additional information\n- Supporting evidence\n- Examples"

/-- Models the slide wrapper `---\n${layoutConfig}---\n\n${content}\n\n---\n`. -/
def slideBlock (layoutCfg content : Str) : Str :=
  strOf "---\n" ++ layoutCfg ++ strOf "---\n\n" ++ content ++ strOf "\n\n---\n"

/-- Models the `forEach` body of `createPresentationFromOutline`: layout and
content chosen by case-insensitive substring match on the item label. -/
def outlineItemSlide (title author item : Str) : Str :=
  if jsIncludes (toLowerStr item) (strOf "introduction") then
    slideBlock (strOf "layout: intro\n") (introContent title)
  else if jsIncludes (toLowerStr item) (strOf "conclusion") then
    slideBlock (strOf "layout: statement\n") (conclusionContent title)
  else if jsIncludes (toLowerStr item) (strOf "q&a") then
    slideBlock (strOf "layout: end\n") (qaContent author)
  else
    slideBlock [] (genericContent item)

/-- Models tools.ts `createPresentationFromOutline` (source default
`theme = 'seriph'`): header slide, table of contents over `outline.slice(1)`,
one slide per remaining item, joined with `'\n'`. -/
def createPresentationFromOutline (title author : Str) (outline : List Str) (theme : Str) : Str :=
  jsJoin (strOf "\n")
    ([deckHeader title author theme, createTableOfContents (outline.drop 1)]
      ++ (outline.drop 1).map (outlineItemSlide title author))

/-- Models tools.ts `createComparisonSlide`. -/
def createComparisonSlide (title leftTitle : Str) (leftContent : List Str)
    (rightTitle : Str) (rightContent : List Str) : Str :=
  strOf "---\nlayout: two-cols\n---\n\n# " ++ title ++ strOf "\n\n::left::\n\n## " ++ leftTitle
    ++ strOf "\n\n" ++ jsJoin (strOf "\n") (leftContent.map (fun item => strOf "- " ++ item))
    ++ strOf "\n\n::right::\n\n## " ++ rightTitle ++ strOf "\n\n"
    ++ jsJoin (strOf "\n") (rightContent.map (fun item => strOf "- " ++ item))
    ++ strOf "\n\n---\n"

inductive ImageLayout
  | image
  | imageLeft
  | imageRight
deriving DecidableEq

/-- Rendered layout name (the TypeScript union value). -/
def imageLayoutName : ImageLayout → Str
  | .image => strOf "image"
  | .imageLeft => strOf "image-left"
  | .imageRight => strOf "image-right"

/-- Models tools.ts `createImageSlide` (source default `layout = 'image'`).
The JS expression `caption ? ... : ''` is falsy for both an absent and an
empty caption. -/
def createImageSlide (title imagePath : Str) (caption : Option Str) (layout : ImageLayout) : Str :=
  let captionText : Str :=
    match caption with
    | some c => if c.isEmpty then [] else strOf "\n\n*" ++ c ++ strOf "*"
    | none => []
  match layout with
  | .image =>
      strOf "---\nlayout: image\nimage: " ++ imagePath ++ strOf "\n---\n\n# " ++ title
        ++ captionText ++ strOf "\n\n---\n"
  | _ =>
      strOf "---\nlayout: " ++ imageLayoutName layout ++ strOf "\nimage: " ++ imagePath
        ++ strOf "\n---\n\n# " ++ title ++ strOf "\n\n" ++ captionText ++ strOf "\n\n---\n"

/-! ## Content validator (tools.ts lines 133-161) -/

/-- The slide separator the validator splits on. -/
def sepStr : Str := strOf "\n---\n"

/-- One line survives the per-slide filter:
`line.trim() && !line.startsWith('---') && !line.includes(':')`. -/
def keepLine (line : Str) : Bool :=
  line.any (fun c => !c.isWhitespace)
    && !jsStartsWith line (strOf "---")
    && !jsIncludes line (strOf ":")

/-- Lines of a segment surviving the filter. -/
def contentLines (seg : Str) : List Str := (jsSplit seg (strOf "\n")).filter keepLine

/-- The message `Slide ${index + 1} appears to be empty`. -/
def slideEmptyMsg (i : Nat) : Str :=
  strOf "Slide " ++ strOf (Nat.repr i) ++ strOf " appears to be empty"

/-- Models the `slides.forEach((slide, index) => ...)` loop, starting at
1-based index `i`. -/
def emptyErrsFrom (i : Nat) : List Str → List Str
  | [] => []
  | seg :: rest =>
    (if (contentLines seg).isEmpty then [slideEmptyMsg i] else []) ++ emptyErrsFrom (i + 1) rest

structure ValidationResult where
  isValid : Bool
  errors : List Str

/-- Models tools.ts `validateSlideContent`. -/
def validateSlideContent (content : Str) : ValidationResult :=
  let e1 : List Str :=
    if jsIncludes content (strOf "---") then [] else [strOf "Missing slide separators (---)"]
  let e2 : List Str :=
    if jsStartsWith content (strOf "---") then []
    else [strOf "Missing frontmatter at the beginning"]
  let errors := e1 ++ e2 ++ emptyErrsFrom 1 (jsSplit content sepStr)
  ⟨errors.isEmpty, errors⟩

/-! ## Recommendation engine (index.ts lines 20-96) and catalogs
(second server variant, `SLIDEV_LAYOUTS` / `SLIDEV_THEMES`) -/

/-- Models `style?.toLowerCase() || ''`. -/
def styleLowerOf (style : Option Str) : Str :=
  match style with
  | some s2 => toLowerStr s2
  | none => []

/-- First theme rule: academic/research keywords. -/
def themeRule1 (topicLower styleLower : Str) : Bool :=
  jsIncludes styleLower (strOf "academic") || jsIncludes styleLower (strOf "research")
    || jsIncludes topicLower (strOf "research")

/-- Second theme rule: tech/programming/development keywords. -/
def themeRule2 (topicLower styleLower : Str) : Bool :=
  jsIncludes styleLower (strOf "tech") || jsIncludes topicLower (strOf "tech")
    || jsIncludes topicLower (strOf "programming") || jsIncludes topicLower (strOf "development")

/-- Third theme rule: creative/fun keywords. -/
def themeRule3 (topicLower styleLower : Str) : Bool :=
  jsIncludes styleLower (strOf "creative") || jsIncludes styleLower (strOf "fun")
    || jsIncludes topicLower (strOf "creative")

/-- Fourth theme rule: formal/business keywords. -/
def themeRule4 (topicLower styleLower : Str) : Bool :=
  jsIncludes styleLower (strOf "formal") || jsIncludes styleLower (strOf "business")
    || jsIncludes topicLower (strOf "business")

/-- Fifth theme rule: casual/friendly keywords (style only). -/
def themeRule5 (styleLower : Str) : Bool :=
  jsIncludes styleLower (strOf "casual") || jsIncludes styleLower (strOf "friendly")

/-- Models index.ts `recommendTheme` (the `topicLower`/`styleLower` locals are
inlined). -/
def recommendTheme (topic : Str) (style : Option Str) : Str :=
  if themeRule1 (toLowerStr topic) (styleLowerOf style) then strOf "academic"
  else if themeRule2 (toLowerStr topic) (styleLowerOf style) then strOf "apple-basic"
  else if themeRule3 (toLowerStr topic) (styleLowerOf style) then strOf "bricks"
  else if themeRule4 (toLowerStr topic) (styleLowerOf style) then strOf "light"
  else if themeRule5 (styleLowerOf style) then strOf "penguin"
  else strOf "seriph"

/-- Layout rule: comparison/vs/versus. -/
def layoutRule1 (descLower : Str) : Bool :=
  jsIncludes descLower (strOf "comparison") || jsIncludes descLower (strOf "vs")
    || jsIncludes descLower (strOf "versus")

/-- Layout rule: quote/saying. -/
def layoutRule2 (descLower : Str) : Bool :=
  jsIncludes descLower (strOf "quote") || jsIncludes descLower (strOf "saying")

/-- Layout rule: image/picture/photo. -/
def layoutRule3 (descLower : Str) : Bool :=
  jsIncludes descLower (strOf "image") || jsIncludes descLower (strOf "picture")
    || jsIncludes descLower (strOf "photo")

/-- Layout rule: center/focus. -/
def layoutRule4 (descLower : Str) : Bool :=
  jsIncludes descLower (strOf "center") || jsIncludes descLower (strOf "focus")

/-- Layout rule: intro/introduction. -/
def layoutRule5 (descLower : Str) : Bool :=
  jsIncludes descLower (strOf "intro") || jsIncludes descLower (strOf "introduction")

/-- Layout rule: end/conclusion/thank. -/
def layoutRule6 (descLower : Str) : Bool :=
  jsIncludes descLower (strOf "end") || jsIncludes descLower (strOf "conclusion")
    || jsIncludes descLower (strOf "thank")

/-- Models index.ts `recommendLayout` (the `descLower` local is inlined). -/
def recommendLayout (description : Str) : Str :=
  if layoutRule1 (toLowerStr description) then strOf "two-cols"
  else if layoutRule2 (toLowerStr description) then strOf "quote"
  else if layoutRule3 (toLowerStr description) then strOf "image"
  else if layoutRule4 (toLowerStr description) then strOf "center"
  else if layoutRule5 (toLowerStr description) then strOf "intro"
  else if layoutRule6 (toLowerStr description) then strOf "end"
  else strOf "default"

/-- The fixed layout catalog `SLIDEV_LAYOUTS`. -/
def SLIDEV_LAYOUTS : List Str :=
  [strOf "default", strOf "center", strOf "cover", strOf "end", strOf "fact", strOf "full",
    strOf "image", strOf "image-left", strOf "image-right", strOf "iframe", strOf "iframe-left",
    strOf "iframe-right", strOf "intro", strOf "none", strOf "quote", strOf "section",
    strOf "statement", strOf "two-cols", strOf "two-cols-header"]

/-- The fixed theme catalog `SLIDEV_THEMES`. -/
def SLIDEV_THEMES : List Str :=
  [strOf "seriph", strOf "default", strOf "apple-basic", strOf "bricks", strOf "light",
    strOf "academic", strOf "eloc", strOf "penguin", strOf "shibainu"]

/-- The property "the text ends with the literal separator `"\n---\n"`". -/
def endsWithSep (s : Str) : Prop := ∃ t, s = t ++ sepStr

/-! ## Helper lemmas about the JS string operations -/

theorem jsStartsWith_iff : ∀ (s pat : Str), jsStartsWith s pat = true ↔ ∃ r, s = pat ++ r
  | s, [] => by simp [jsStartsWith]
  | [], p :: ps => by simp [jsStartsWith]
  | c :: cs, p :: ps => by
    simp only [jsStartsWith, Bool.and_eq_true, beq_iff_eq, jsStartsWith_iff cs ps]
    constructor
    · rintro ⟨rfl, r, rfl⟩
      exact ⟨r, rfl⟩
    · rintro ⟨r, hr⟩
      rw [List.cons_append] at hr
      injection hr with h1 h2
      exact ⟨h1, r, h2⟩

theorem splitOnceAux_eq_some (sep : Str) :
    ∀ {s pre post : Str}, splitOnceAux sep s = some (pre, post) → s = pre ++ (sep ++ post) := by
  intro s
  induction s with
  | nil => intro pre post h; simp [splitOnceAux] at h
  | cons c rest ih =>
    intro pre post h
    rw [splitOnceAux] at h
    by_cases hstart : jsStartsWith (c :: rest) sep
    · rw [if_pos hstart] at h
      simp only [Option.some.injEq, Prod.mk.injEq] at h
      obtain ⟨h1, h2⟩ := h
      subst h1
      subst h2
      obtain ⟨r, hr⟩ := (jsStartsWith_iff _ _).mp hstart
      rw [hr, List.drop_left]
      simp
    · rw [if_neg hstart] at h
      cases hrec : splitOnceAux sep rest with
      | none => rw [hrec] at h; simp at h
      | some pp =>
        rw [hrec] at h
        simp only [Option.some.injEq] at h
        cases h
        have hr := ih hrec
        rw [List.cons_append]
        rw [hr]

theorem splitOnceAux_eq_none (sep : Str) (hsep : sep ≠ []) :
    ∀ {s : Str}, splitOnceAux sep s = none → ∀ p q, s ≠ p ++ (sep ++ q) := by
  intro s
  induction s with
  | nil =>
    intro _ p q heq
    rcases List.append_eq_nil.mp heq.symm with ⟨h1, h2⟩
    exact hsep (List.append_eq_nil.mp h2).1
  | cons c rest ih =>
    intro h p q heq
    rw [splitOnceAux] at h
    by_cases hstart : jsStartsWith (c :: rest) sep
    · rw [if_pos hstart] at h; simp at h
    · rw [if_neg hstart] at h
      cases hrec : splitOnceAux sep rest with
      | some pp => rw [hrec] at h; simp at h
      | none =>
        cases p with
        | nil =>
          simp only [List.nil_append] at heq
          exact hstart ((jsStartsWith_iff _ _).mpr ⟨q, heq⟩)
        | cons d p2 =>
          rw [List.cons_append] at heq
          injection heq with h1 h2
          exact ih hrec p2 q h2

theorem jsSplitF_ne_nil (sep : Str) : ∀ (fuel : Nat) (s : Str), jsSplitF sep fuel s ≠ [] := by
  intro fuel s
  cases fuel with
  | zero => simp [jsSplitF]
  | succ f =>
    rw [jsSplitF]
    cases splitOnceAux sep s <;> simp

theorem getLast?_cons_ne {a : Str} {l : List Str} (h : l ≠ []) :
    (a :: l).getLast? = l.getLast? := by
  cases l with
  | nil => exact absurd rfl h
  | cons b l2 => exact List.getLast?_cons_cons

theorem jsSplitF_getLast (sep : Str) (hsep : sep ≠ []) :
    ∀ (fuel : Nat) (s : Str), s.length ≤ fuel →
      ∃ L, (jsSplitF sep fuel s).getLast? = some L ∧
        (∀ p q, L ≠ p ++ (sep ++ q)) ∧
        (L = s ∨ ∃ p, s = p ++ (sep ++ L)) := by
  intro fuel
  induction fuel with
  | zero =>
    intro s hs
    have hs0 : s = [] := List.length_eq_zero.mp (Nat.le_zero.mp hs)
    subst hs0
    refine ⟨[], rfl, ?_, Or.inl rfl⟩
    intro p q heq
    rcases List.append_eq_nil.mp heq.symm with ⟨h1, h2⟩
    exact hsep (List.append_eq_nil.mp h2).1
  | succ fuel ih =>
    intro s hs
    cases hsplit : splitOnceAux sep s with
    | none =>
      refine ⟨s, ?_, splitOnceAux_eq_none sep hsep hsplit, Or.inl rfl⟩
      simp [jsSplitF, hsplit]
    | some pp =>
      obtain ⟨pre, post⟩ := pp
      have hdecomp : s = pre ++ (sep ++ post) := splitOnceAux_eq_some sep hsplit
      have hseplen : 1 ≤ sep.length := by
        cases sep with
        | nil => exact absurd rfl hsep
        | cons a t => simp
      have hlen : post.length ≤ fuel := by
        have hl := congrArg List.length hdecomp
        simp only [List.length_append] at hl
        omega
      obtain ⟨L, hL1, hL2, hL3⟩ := ih post hlen
      refine ⟨L, ?_, hL2, ?_⟩
      · have hne := jsSplitF_ne_nil sep fuel post
        simp only [jsSplitF, hsplit]
        rw [getLast?_cons_ne hne]
        exact hL1
      · rcases hL3 with rfl | ⟨p, hp⟩
        · exact Or.inr ⟨pre, hdecomp⟩
        · refine Or.inr ⟨pre ++ sep ++ p, ?_⟩
          rw [hdecomp, hp]
          simp [List.append_assoc]

theorem append_eq_append_shorter :
    ∀ (a x b y : Str), a ++ x = b ++ y → x.length ≤ y.length → ∃ w, y = w ++ x := by
  intro a
  induction a with
  | nil =>
    intro x b y h hl
    simp only [List.nil_append] at h
    have hb : b = [] := by
      have hlh := congrArg List.length h
      simp only [List.length_append] at hlh
      have hb0 : b.length = 0 := by omega
      exact List.length_eq_zero.mp hb0
    subst hb
    simp only [List.nil_append] at h
    refine ⟨[], ?_⟩
    simp [h]
  | cons c a2 ih =>
    intro x b y h hl
    cases b with
    | nil =>
      simp only [List.nil_append] at h
      exact ⟨c :: a2, h.symm⟩
    | cons d b2 =>
      rw [List.cons_append, List.cons_append] at h
      injection h with h1 h2
      exact ih x b2 y h2 hl

/-! ## Helper lemmas about the validator -/

theorem emptyErrsFrom_getLast :
    ∀ (segs : List Str) (i : Nat) (L : Str), segs.getLast? = some L →
      (contentLines L).isEmpty = true →
      slideEmptyMsg (i + segs.length - 1) ∈ emptyErrsFrom i segs := by
  intro segs
  induction segs with
  | nil => intro i L h; simp at h
  | cons a rest ih =>
    intro i L hL hE
    cases rest with
    | nil =>
      simp only [List.getLast?_singleton, Option.some.injEq] at hL
      subst hL
      simp only [List.length_cons, List.length_nil, Nat.zero_add, Nat.add_sub_cancel]
      simp [emptyErrsFrom, hE]
    | cons b rest2 =>
      rw [List.getLast?_cons_cons] at hL
      have hmem := ih (i + 1) L hL hE
      have harith : i + (a :: b :: rest2).length - 1 = i + 1 + (b :: rest2).length - 1 := by
        simp only [List.length_cons]
        omega
      rw [harith, emptyErrsFrom]
      exact List.mem_append_right _ hmem

theorem emptyErrsFrom_get :
    ∀ (segs : List Str) (i j : Nat) (seg : Str), segs[j]? = some seg →
      (contentLines seg).isEmpty = true →
      slideEmptyMsg (i + j) ∈ emptyErrsFrom i segs := by
  intro segs
  induction segs with
  | nil => intro i j seg h; simp at h
  | cons a rest ih =>
    intro i j seg hj hE
    cases j with
    | zero =>
      simp only [List.getElem?_cons_zero, Option.some.injEq] at hj
      subst hj
      simp [emptyErrsFrom, hE]
    | succ j2 =>
      rw [List.getElem?_cons_succ] at hj
      have hmem := ih (i + 1) j2 seg hj hE
      have harith : i + (j2 + 1) = i + 1 + j2 := by omega
      rw [harith, emptyErrsFrom]
      exact List.mem_append_right _ hmem

theorem validate_mem (content msg : Str)
    (h : msg ∈ emptyErrsFrom 1 (jsSplit content sepStr)) :
    msg ∈ (validateSlideContent content).errors ∧
      (validateSlideContent content).isValid = false := by
  have hmem : msg ∈ (validateSlideContent content).errors := by
    simp only [validateSlideContent, List.mem_append]
    tauto
  refine ⟨hmem, ?_⟩
  have hne : (validateSlideContent content).errors ≠ [] := List.ne_nil_of_mem hmem
  show ((validateSlideContent content).errors).isEmpty = false
  exact List.isEmpty_eq_false.mpr hne

/-! ## Helper lemmas: every rendered slide text ends with the separator -/

theorem endsWithSep_append (s t : Str) (h : endsWithSep t) : endsWithSep (s ++ t) := by
  obtain ⟨u, rfl⟩ := h
  exact ⟨s ++ u, (List.append_assoc s u sepStr).symm⟩

theorem endsWithSep_lit : endsWithSep (strOf "\n\n---\n") := ⟨strOf "\n", rfl⟩

theorem slideBlock_ends (cfg c : Str) : endsWithSep (slideBlock cfg c) := by
  unfold slideBlock
  repeat (first | exact endsWithSep_lit | apply endsWithSep_append)

theorem outlineItemSlide_ends (t a x : Str) : endsWithSep (outlineItemSlide t a x) := by
  unfold outlineItemSlide
  split
  · exact slideBlock_ends _ _
  split
  · exact slideBlock_ends _ _
  split
  · exact slideBlock_ends _ _
  · exact slideBlock_ends _ _

theorem deckHeader_ends (t a th : Str) : endsWithSep (deckHeader t a th) := by
  unfold deckHeader
  repeat (first | exact endsWithSep_lit | apply endsWithSep_append)

theorem toc_ends (topics : List Str) : endsWithSep (createTableOfContents topics) := by
  unfold createTableOfContents
  repeat (first | exact endsWithSep_lit | apply endsWithSep_append)

theorem jsJoin_ends (nl : Str) :
    ∀ (l : List Str), l ≠ [] → (∀ x ∈ l, endsWithSep x) → endsWithSep (jsJoin nl l) := by
  intro l
  induction l with
  | nil => intro h; exact absurd rfl h
  | cons a rest ih =>
    intro _ hall
    cases rest with
    | nil =>
      have := hall a (by simp)
      simpa [jsJoin] using this
    | cons b rest2 =>
      rw [jsJoin]
      have hj := ih (by simp) (fun x hx => hall x (by simp [List.mem_cons] at hx ⊢; tauto))
      repeat (first | exact hj | apply endsWithSep_append)

theorem createPres_ends (t a th : Str) (o : List Str) :
    endsWithSep (createPresentationFromOutline t a o th) := by
  unfold createPresentationFromOutline
  apply jsJoin_ends
  · simp
  · intro x hx
    simp only [List.cons_append, List.nil_append, List.mem_cons, List.mem_map] at hx
    rcases hx with rfl | rfl | ⟨item, hitem, rfl⟩
    · exact deckHeader_ends _ _ _
    · exact toc_ends _
    · exact outlineItemSlide_ends _ _ _

theorem comparison_ends (t lt : Str) (lc : List Str) (rt : Str) (rc : List Str) :
    endsWithSep (createComparisonSlide t lt lc rt rc) := by
  unfold createComparisonSlide
  repeat (first | exact endsWithSep_lit | apply endsWithSep_append)

theorem imageSlide_ends (t p : Str) (c : Option Str) (l : ImageLayout) :
    endsWithSep (createImageSlide t p c l) := by
  cases l <;>
    · simp only [createImageSlide]
      repeat (first | exact endsWithSep_lit | apply endsWithSep_append)

/-! ## Helper lemmas about the outline generator -/

theorem gen_length (topic : Str) (d : Int) :
    (generatePresentationOutline topic d).length =
      min (clampedSlides d).toNat (3 * (clampedSlides d).toNat / 5 + 6) := by
  simp only [generatePresentationOutline, List.length_take, List.length_append,
    List.length_map, List.length_range, List.length_cons, List.length_nil]
  omega

theorem clampedSlides_mono {d1 d2 : Int} (h : d1 ≤ d2) : clampedSlides d1 ≤ clampedSlides d2 := by
  unfold clampedSlides
  have hf : Int.fdiv d1 2 ≤ Int.fdiv d2 2 := by
    rw [Int.fdiv_eq_ediv _ (by decide), Int.fdiv_eq_ediv _ (by decide)]
    exact Int.ediv_le_ediv (by decide) h
  exact max_le_max le_rfl (min_le_min le_rfl hf)

/-! ## Claim theorems -/

/-- C1 (code bug): at the failing input (title "T", author "A", outline
["Title: T", "Item A"], theme "seriph") the deck produced by
`createPresentationFromOutline` does NOT validate: `validateSlideContent`
reports the front-matter segment (and others) as empty, contradicting the
spec and the repository test suite, which expect such decks to be valid. -/
theorem claim1_deck_never_validates :
    (validateSlideContent (createPresentationFromOutline (strOf "T") (strOf "A")
        [strOf "Title: T", strOf "Item A"] (strOf "seriph"))).isValid = false ∧
    slideEmptyMsg 1 ∈ (validateSlideContent (createPresentationFromOutline (strOf "T") (strOf "A")
        [strOf "Title: T", strOf "Item A"] (strOf "seriph"))).errors := by
  constructor <;> decide

/-- C2 counterexample: `generatePresentationOutline(t, 1000)` has 18 items,
not 20 as the claim states (the fixed header/trailer items cap the list at
`6 + floor(0.6 * 20) = 18` before `slice(0, 20)`). -/
theorem claim2_counterexample :
    (generatePresentationOutline (strOf "t") 1000).length ≠ 20 := by decide

/-- C2 (amended): for every topic, the outline at duration 0 has exactly 5
items, and at duration 1000 exactly 18 items. -/
theorem claim2_amended (topic : Str) :
    (generatePresentationOutline topic 0).length = 5 ∧
      (generatePresentationOutline topic 1000).length = 18 := by
  constructor <;> rw [gen_length] <;> decide

/-- C3 counterexample: d1 = 30 and d2 = 30 + 2 = 32 satisfy every hypothesis
of the claim (floors 15 and 16, both in [5, 20], clamped counts differ), yet
both outlines have length 15, so the strict-increase part fails. -/
theorem claim3_counterexample :
    (30 : Int) < 32 ∧
    5 ≤ Int.fdiv 30 2 ∧ Int.fdiv 30 2 ≤ 20 ∧ 5 ≤ Int.fdiv 32 2 ∧ Int.fdiv 32 2 ≤ 20 ∧
    clampedSlides 30 ≠ clampedSlides 32 ∧
    ¬ (generatePresentationOutline (strOf "t") 30).length <
        (generatePresentationOutline (strOf "t") 32).length := by
  decide

/-- C3 (amended): under the claim hypotheses the outline length is monotone
(non-strictly); strictness can fail even when the clamped counts differ. -/
theorem claim3_amended (topic : Str) (d1 d2 : Int) (h : d1 < d2)
    (_h1 : 5 ≤ Int.fdiv d1 2) (_h2 : Int.fdiv d1 2 ≤ 20)
    (_h3 : 5 ≤ Int.fdiv d2 2) (_h4 : Int.fdiv d2 2 ≤ 20) :
    (generatePresentationOutline topic d1).length ≤
      (generatePresentationOutline topic d2).length := by
  rw [gen_length, gen_length]
  have hs : (clampedSlides d1).toNat ≤ (clampedSlides d2).toNat :=
    Int.toNat_le_toNat (clampedSlides_mono (le_of_lt h))
  have hdiv : 3 * (clampedSlides d1).toNat / 5 ≤ 3 * (clampedSlides d2).toNat / 5 :=
    Nat.div_le_div_right (Nat.mul_le_mul_left 3 hs)
  omega

/-- C3 witness: the amended theorem applied at d1 = 10, d2 = 40. -/
theorem claim3_witness :
    (generatePresentationOutline (strOf "t") 10).length ≤
      (generatePresentationOutline (strOf "t") 40).length :=
  claim3_amended _ 10 40 (by decide) (by decide) (by decide) (by decide) (by decide)

/-- C5: for every topic, duration 10 gives exactly the 3 headers plus
"Main Content 1"/"Main Content 2" (trailer truncated away), and duration 30
gives exactly headers + "Main Content 1".."Main Content 9" + trailer. -/
theorem claim5_edge_durations (topic : Str) :
    generatePresentationOutline topic 10 =
      [strOf "Title: " ++ topic, strOf "Introduction and Overview",
        strOf "Background and Context", strOf "Main Content 1", strOf "Main Content 2"] ∧
    generatePresentationOutline topic 30 =
      [strOf "Title: " ++ topic, strOf "Introduction and Overview",
        strOf "Background and Context", strOf "Main Content 1", strOf "Main Content 2",
        strOf "Main Content 3", strOf "Main Content 4", strOf "Main Content 5",
        strOf "Main Content 6", strOf "Main Content 7", strOf "Main Content 8",
        strOf "Main Content 9", strOf "Key Takeaways", strOf "Conclusion", strOf "Q&A"] := by
  constructor <;> rfl

/-- C6 counterexample: with layout `image` the caption `*cap*` is NOT on the
same line as the title heading: no line of the output contains both `# T`
and `*cap*`. -/
theorem claim6_counterexample :
    ((jsSplit (createImageSlide (strOf "T") (strOf "p.png") (some (strOf "cap"))
          ImageLayout.image) (strOf "\n")).any
      (fun line => jsIncludes line (strOf "# T") && jsIncludes line (strOf "*cap*"))) = false := by
  decide

/-- C6 (amended): both layouts put `*cap*` on its own line below the heading;
layout `image` emits `# T\n\n*cap*` (one blank line) while `image-left` emits
`# T\n\n\n\n*cap*` (three blank lines), so apart from the layout name the two
outputs differ exactly in the blank lines before the caption. -/
theorem claim6_amended :
    createImageSlide (strOf "T") (strOf "p.png") (some (strOf "cap")) ImageLayout.image =
      strOf "---\nlayout: image\nimage: p.png\n---\n\n# T\n\n*cap*\n\n---\n" ∧
    createImageSlide (strOf "T") (strOf "p.png") (some (strOf "cap")) ImageLayout.imageLeft =
      strOf "---\nlayout: image-left\nimage: p.png\n---\n\n# T\n\n\n\n*cap*\n\n---\n" := by
  constructor <;> rfl

/-- C7 counterexample: the first theme rule never tests the topic for
"academic" (only for "research"), so the topic "academic writing" with no
style falls through to the default `seriph` instead of `academic`. -/
theorem claim7_counterexample :
    jsIncludes (toLowerStr (strOf "academic writing")) (strOf "academic") = true ∧
      recommendTheme (strOf "academic writing") none = strOf "seriph" := by
  decide

/-- C7 (amended): rules are tested top-to-bottom with the style text checked
before the topic text, but the topic is only consulted for "research": every
topic whose lower-cased text contains "research" maps to `academic` when no
style is given. -/
theorem claim7_amended (topic : Str)
    (h : jsIncludes (toLowerStr topic) (strOf "research") = true) :
    recommendTheme topic none = strOf "academic" := by
  have e1 : jsIncludes (styleLowerOf none) (strOf "academic") = false := by decide
  have e2 : jsIncludes (styleLowerOf none) (strOf "research") = false := by decide
  have h1 : themeRule1 (toLowerStr topic) (styleLowerOf none) = true := by
    simp [themeRule1, e1, e2, h]
  simp [recommendTheme, h1]

/-- C7 witness: the amended theorem at topic "Research". -/
theorem claim7_witness : recommendTheme (strOf "Research") none = strOf "academic" :=
  claim7_amended _ (by decide)

/-- C9: for every topic and every integer duration the outline is non-empty
and its first element is `"Title: " ++ topic`. -/
theorem claim9_title_head (topic : Str) (d : Int) :
    generatePresentationOutline topic d ≠ [] ∧
      (generatePresentationOutline topic d).head? = some (strOf "Title: " ++ topic) := by
  have h5 : 5 ≤ (clampedSlides d).toNat := by
    have h : (5 : Int) ≤ clampedSlides d := le_max_left _ _
    have h2 := Int.toNat_le_toNat h
    simpa using h2
  obtain ⟨m, hm⟩ : ∃ m, (clampedSlides d).toNat = m + 1 :=
    ⟨(clampedSlides d).toNat - 1, by omega⟩
  simp only [generatePresentationOutline, List.cons_append]
  rw [hm]
  simp [List.take_succ_cons]

/-- C10: `recommendTheme` and `recommendLayout` are total functions whose
result always lies in the respective catalog, and when no keyword rule
matches they return the defaults `seriph` and `default`. -/
theorem claim10_total_catalog :
    (∀ (topic : Str) (style : Option Str), recommendTheme topic style ∈ SLIDEV_THEMES) ∧
    (∀ desc : Str, recommendLayout desc ∈ SLIDEV_LAYOUTS) ∧
    (∀ (topic : Str) (style : Option Str),
        themeRule1 (toLowerStr topic) (styleLowerOf style) = false →
        themeRule2 (toLowerStr topic) (styleLowerOf style) = false →
        themeRule3 (toLowerStr topic) (styleLowerOf style) = false →
        themeRule4 (toLowerStr topic) (styleLowerOf style) = false →
        themeRule5 (styleLowerOf style) = false →
        recommendTheme topic style = strOf "seriph") ∧
    (∀ desc : Str,
        layoutRule1 (toLowerStr desc) = false → layoutRule2 (toLowerStr desc) = false →
        layoutRule3 (toLowerStr desc) = false → layoutRule4 (toLowerStr desc) = false →
        layoutRule5 (toLowerStr desc) = false → layoutRule6 (toLowerStr desc) = false →
        recommendLayout desc = strOf "default") := by
  refine ⟨?_, ?_, ?_, ?_⟩
  · intro topic style
    unfold recommendTheme
    repeat' split
    all_goals decide
  · intro desc
    unfold recommendLayout
    repeat' split
    all_goals decide
  · intro topic style hr1 hr2 hr3 hr4 hr5
    simp [recommendTheme, hr1, hr2, hr3, hr4, hr5]
  · intro desc hl1 hl2 hl3 hl4 hl5 hl6
    simp [recommendLayout, hl1, hl2, hl3, hl4, hl5, hl6]

/-- C10 witness: the theorem applied at the empty topic/style/description,
with all no-match hypotheses discharged by evaluation. -/
theorem claim10_witness :
    recommendTheme (strOf "") none ∈ SLIDEV_THEMES ∧
    recommendLayout (strOf "") ∈ SLIDEV_LAYOUTS ∧
    recommendTheme (strOf "") none = strOf "seriph" ∧
    recommendLayout (strOf "") = strOf "default" :=
  ⟨claim10_total_catalog.1 _ none, claim10_total_catalog.2.1 _,
    claim10_total_catalog.2.2.1 _ none (by decide) (by decide) (by decide) (by decide) (by decide),
    claim10_total_catalog.2.2.2 _ (by decide) (by decide) (by decide) (by decide) (by decide)
      (by decide)⟩

/-- C8: the validator splits on `"\n---\n"` and reports segment j (1-indexed)
as empty whenever every line of the segment is blank, starts with `---`, or
contains a colon; in particular the line "Ratio: 3:1" is stripped by the
colon heuristic even though it is non-blank content. -/
theorem claim8_colon_heuristic :
    (∀ (content : Str) (j : Nat) (seg : Str),
        (jsSplit content sepStr)[j]? = some seg →
        (contentLines seg).isEmpty = true →
        slideEmptyMsg (j + 1) ∈ (validateSlideContent content).errors ∧
          (validateSlideContent content).isValid = false) ∧
    (contentLines (strOf "Ratio: 3:1")).isEmpty = true ∧
    (strOf "Ratio: 3:1").any (fun c => !c.isWhitespace) = true := by
  refine ⟨?_, by decide, by decide⟩
  intro content j seg hj hE
  have hmem := emptyErrsFrom_get (jsSplit content sepStr) 1 j seg hj hE
  rw [Nat.add_comm 1 j] at hmem
  exact validate_mem content _ hmem

/-- C8 witness: on `"x\n---\nRatio: 3:1"` the second segment consists solely
of the colon-bearing line, so the validator reports slide 2 empty. -/
theorem claim8_witness :
    slideEmptyMsg 2 ∈ (validateSlideContent (strOf "x\n---\nRatio: 3:1")).errors ∧
      (validateSlideContent (strOf "x\n---\nRatio: 3:1")).isValid = false :=
  claim8_colon_heuristic.1 (strOf "x\n---\nRatio: 3:1") 1 (strOf "Ratio: 3:1")
    (by decide) (by decide)

/-- C4: every output of `createPresentationFromOutline`,
`createComparisonSlide` and `createImageSlide` ends with `"\n---\n"`, and for
every string ending with that separator the validator reports the trailing
segment produced by the split as empty, hence `isValid = false`. -/
theorem claim4_trailing_separator :
    (∀ (title author theme : Str) (outline : List Str),
        endsWithSep (createPresentationFromOutline title author outline theme)) ∧
    (∀ (t lt : Str) (lc : List Str) (rt : Str) (rc : List Str),
        endsWithSep (createComparisonSlide t lt lc rt rc)) ∧
    (∀ (t p : Str) (c : Option Str) (l : ImageLayout), endsWithSep (createImageSlide t p c l)) ∧
    (∀ content : Str, endsWithSep content →
        slideEmptyMsg (jsSplit content sepStr).length ∈ (validateSlideContent content).errors ∧
          (validateSlideContent content).isValid = false) := by
  refine ⟨fun title author theme outline => createPres_ends title author theme outline,
    comparison_ends, imageSlide_ends, ?_⟩
  intro content hc
  obtain ⟨t0, rfl⟩ := hc
  have hsep : sepStr ≠ [] := by decide
  obtain ⟨L, hlast, hnocc, hdisj⟩ :=
    jsSplitF_getLast sepStr hsep (t0 ++ sepStr).length (t0 ++ sepStr) le_rfl
  have hlast2 : (jsSplit (t0 ++ sepStr) sepStr).getLast? = some L := hlast
  have hLempty : (contentLines L).isEmpty = true := by
    rcases hdisj with rfl | ⟨p, hp⟩
    · exact absurd (by simp : t0 ++ sepStr = t0 ++ (sepStr ++ [])) (hnocc t0 [])
    · by_cases hlen : L.length ≤ sepStr.length
      · obtain ⟨w, hw⟩ : ∃ w, sepStr = w ++ L :=
          append_eq_append_shorter (p ++ sepStr) L t0 sepStr
            (by rw [List.append_assoc]; exact hp.symm) hlen
        obtain ⟨v, hv⟩ : ∃ v, sepStr ++ L = v ++ sepStr :=
          append_eq_append_shorter t0 sepStr p (sepStr ++ L) hp
            (by simp only [List.length_append]; omega)
        have hkey : List.drop L.length (sepStr ++ L) = sepStr := by
          have h2 : v.length = L.length := by
            have h3 := congrArg List.length hv
            simp only [List.length_append] at h3
            omega
          rw [← h2, hv, List.drop_left]
        have hLd : L = List.drop w.length sepStr := by rw [hw, List.drop_left]
        have hk5 : w.length ≤ 5 := by
          have hlw := congrArg List.length hw
          simp only [List.length_append] at hlw
          have hsl : sepStr.length = 5 := by decide
          omega
        generalize hg : w.length = k at hLd hk5
        interval_cases k
        · subst hLd
          exact absurd (by decide : List.drop 0 sepStr = [] ++ (sepStr ++ []))
            (hnocc [] [])
        · subst hLd
          decide
        · subst hLd
          exact absurd hkey (by decide)
        · subst hLd
          exact absurd hkey (by decide)
        · subst hLd
          exact absurd hkey (by decide)
        · subst hLd
          decide
      · push_neg at hlen
        obtain ⟨w, hw⟩ : ∃ w, L = w ++ sepStr :=
          append_eq_append_shorter t0 sepStr (p ++ sepStr) L
            (by rw [List.append_assoc]; exact hp) (le_of_lt hlen)
        refine absurd ?_ (hnocc w [])
        rw [hw]
        simp
  have hne : jsSplit (t0 ++ sepStr) sepStr ≠ [] := jsSplitF_ne_nil sepStr _ _
  have hlen1 : 1 ≤ (jsSplit (t0 ++ sepStr) sepStr).length := by
    have := List.length_pos.mpr hne
    omega
  have hmem := emptyErrsFrom_getLast (jsSplit (t0 ++ sepStr) sepStr) 1 L hlast2 hLempty
  rw [show 1 + (jsSplit (t0 ++ sepStr) sepStr).length - 1 =
      (jsSplit (t0 ++ sepStr) sepStr).length from by omega] at hmem
  exact validate_mem _ _ hmem

/-- C4 witness: the validator part of the theorem applied to the concrete
string `"x\n---\n"`. -/
theorem claim4_witness :
    endsWithSep (strOf "x\n---\n") ∧
    slideEmptyMsg (jsSplit (strOf "x\n---\n") sepStr).length ∈
        (validateSlideContent (strOf "x\n---\n")).errors ∧
      (validateSlideContent (strOf "x\n---\n")).isValid = false :=
  ⟨⟨strOf "x", by decide⟩,
    claim4_trailing_separator.2.2.2 (strOf "x\n---\n") ⟨strOf "x", by decide⟩⟩
